import Mathlib

/-!
# Cartesian motion controller: error law, target buffer and per-cycle dispatch

A shallow embedding of `cartesian_motion_controller.hpp`.

Scalars (`double` in the source) are elements of an arbitrary linearly ordered
field `α`, i.e. arithmetic is exact; every definition is executable at `α = ℚ`.

The controller uses three kinds of code that live outside the file:

* the inline frame algebra of KDL (vector difference and scaling, rotation
  product, rotation inverse, quaternion constructor), which is polynomial and is
  written out below;
* the two KDL routines whose bodies need square roots and inverse trigonometric
  functions, `Rotation::GetRotAngle` and `Vector::Normalize`; they are taken
  as parameters (`KDL.Numeric`), and each theorem names the part of their
  documented contract it relies on; `KDL.Vector.Normalize` writes out what
  `Vector::Normalize` does around its tolerance, over a norm routine;
* the base class `CartesianControllerBase` with its forward dynamics solver,
  taken as parameters (`Base`) acting on an abstract base state `σ`.
-/

set_option linter.unusedVariables false

namespace KDL

/-- A `KDL::Vector`: three coordinates. -/
structure Vector (α : Type) where
  x : α
  y : α
  z : α
deriving DecidableEq

/-- A `KDL::Rotation`: a 3x3 matrix stored row-major in `data[0..8]`; the fields
are named and ordered as the arguments of the constructor
`Rotation(Xx,Yx,Zx,Xy,Yy,Zy,Xz,Yz,Zz)`. -/
structure Rotation (α : Type) where
  Xx : α
  Yx : α
  Zx : α
  Xy : α
  Yy : α
  Zy : α
  Xz : α
  Yz : α
  Zz : α
deriving DecidableEq

/-- A `KDL::Frame`: origin `p` and orientation `M`. -/
structure Frame (α : Type) where
  p : Vector α
  M : Rotation α
deriving DecidableEq

variable {α : Type}

/-- The `KDL::Vector::Zero()` vector. -/
def Vector.Zero [Zero α] : Vector α := ⟨0, 0, 0⟩

/-- The `operator-(Vector, Vector)` of KDL: coordinatewise difference. -/
def Vector.sub [Sub α] (a b : Vector α) : Vector α := ⟨a.x - b.x, a.y - b.y, a.z - b.z⟩

/-- The `operator*(Vector, double)` of KDL: coordinatewise scaling. -/
def Vector.scale [Mul α] (a : Vector α) (s : α) : Vector α := ⟨a.x * s, a.y * s, a.z * s⟩

/-- The `operator/(Vector, double)` of KDL: coordinatewise division. -/
def Vector.divide [Div α] (a : Vector α) (s : α) : Vector α := ⟨a.x / s, a.y / s, a.z / s⟩

/-- Sum of the squared coordinates: the square of the Euclidean norm. -/
def Vector.normSq [Add α] [Mul α] (a : Vector α) : α := a.x * a.x + a.y * a.y + a.z * a.z

/-- The array `KDL::Rotation::data`, row-major. -/
def Rotation.data (R : Rotation α) : Fin 9 → α :=
  ![R.Xx, R.Yx, R.Zx, R.Xy, R.Yy, R.Zy, R.Xz, R.Yz, R.Zz]

/-- The `KDL::Rotation::Identity()` rotation. -/
def Rotation.Identity [Zero α] [One α] : Rotation α := ⟨1, 0, 0, 0, 1, 0, 0, 0, 1⟩

/-- The `operator*(Rotation, Rotation)` of KDL: the matrix product. -/
def Rotation.mul [Add α] [Mul α] (l r : Rotation α) : Rotation α :=
  ⟨l.Xx * r.Xx + l.Yx * r.Xy + l.Zx * r.Xz,
   l.Xx * r.Yx + l.Yx * r.Yy + l.Zx * r.Yz,
   l.Xx * r.Zx + l.Yx * r.Zy + l.Zx * r.Zz,
   l.Xy * r.Xx + l.Yy * r.Xy + l.Zy * r.Xz,
   l.Xy * r.Yx + l.Yy * r.Yy + l.Zy * r.Yz,
   l.Xy * r.Zx + l.Yy * r.Zy + l.Zy * r.Zz,
   l.Xz * r.Xx + l.Yz * r.Xy + l.Zz * r.Xz,
   l.Xz * r.Yx + l.Yz * r.Yy + l.Zz * r.Yz,
   l.Xz * r.Zx + l.Yz * r.Zy + l.Zz * r.Zz⟩

/-- The `KDL::Rotation::Inverse()` of KDL: a copy with `data[1]`/`data[3]`,
`data[2]`/`data[6]` and `data[5]`/`data[7]` swapped, i.e. the transpose. -/
def Rotation.Inverse (R : Rotation α) : Rotation α :=
  ⟨R.Xx, R.Xy, R.Xz, R.Yx, R.Yy, R.Yz, R.Zx, R.Zy, R.Zz⟩

/-- The `KDL::Rotation::Quaternion(x,y,z,w)` constructor of KDL. -/
def Rotation.Quaternion [Ring α] (x y z w : α) : Rotation α :=
  let x2 := x * x
  let y2 := y * y
  let z2 := z * z
  let w2 := w * w
  ⟨w2 + x2 - y2 - z2, 2 * x * y - 2 * w * z, 2 * x * z + 2 * w * y,
   2 * x * y + 2 * w * z, w2 - x2 + y2 - z2, 2 * y * z - 2 * w * x,
   2 * x * z - 2 * w * y, 2 * y * z + 2 * w * x, w2 - x2 - y2 + z2⟩

/-- The rows of `R` are orthonormal: `R` is the matrix of a rotation, which is what a
`KDL::Rotation` is meant to hold (the class itself does not enforce it). -/
def Rotation.IsOrthonormal [Add α] [Mul α] [Zero α] [One α] (R : Rotation α) : Prop :=
  R.Xx * R.Xx + R.Yx * R.Yx + R.Zx * R.Zx = 1 ∧
  R.Xy * R.Xy + R.Yy * R.Yy + R.Zy * R.Zy = 1 ∧
  R.Xz * R.Xz + R.Yz * R.Yz + R.Zz * R.Zz = 1 ∧
  R.Xx * R.Xy + R.Yx * R.Yy + R.Zx * R.Zy = 0 ∧
  R.Xx * R.Xz + R.Yx * R.Yz + R.Zx * R.Zz = 0 ∧
  R.Xy * R.Xz + R.Yy * R.Yz + R.Zy * R.Zz = 0

/-- The `KDL::Frame::Identity()` frame. -/
def Frame.Identity [Zero α] [One α] : Frame α := ⟨Vector.Zero, Rotation.Identity⟩

/-- The two KDL routines that are not polynomial, as parameters.

* `GetRotAngle R axis0` stands for `R.GetRotAngle(axis)` called with `axis`
  holding `axis0`: it yields the value of `axis` after the call and the returned
  angle.
* `Normalize v` stands for `v.Normalize()`: it yields the value of `v` after the
  call and the returned norm. -/
structure Numeric (α : Type) where
  GetRotAngle : Rotation α → Vector α → Vector α × α
  Normalize : Vector α → Vector α × α

/-- Contract of `Vector::Normalize` at `v` in exact arithmetic: the returned value
`r.2` is the Euclidean norm of `v` (non-negative, with square the sum of the
squared coordinates) and, unless it is zero, the vector left behind `r.1` is `v`
divided by it. Nothing is required of the vector left behind at norm zero. -/
def IsNormalized [LinearOrderedField α] (v : Vector α) (r : Vector α × α) : Prop :=
  0 ≤ r.2 ∧ r.2 * r.2 = v.normSq ∧ (r.2 ≠ 0 → r.1 = v.divide r.2)

/-- The routine `Vector::Normalize(eps)` of KDL over a norm routine `Norm`: the norm
of the vector is taken; if it is below `eps` the vector is overwritten with
`(1,0,0)`, otherwise the vector is divided by the norm; the norm is returned. The
controller calls it with the default `eps`, KDL's `epsilon = 0.000001`. -/
def Vector.Normalize [LinearOrderedField α] (Norm : Vector α → α) (eps : α) (v : Vector α) :
    Vector α × α :=
  let n := Norm v
  if n < eps then (⟨1, 0, 0⟩, n) else (v.divide n, n)

end KDL

namespace boost

/-- The `boost::algorithm::clamp(val, lo, hi)` of Boost:
`(val < lo) ? lo : (hi < val) ? hi : val`. -/
def clamp {α : Type} [LinearOrder α] (val lo hi : α) : α :=
  if val < lo then lo else if hi < val then hi else val

end boost

namespace geometry_msgs

/-- The part of `std_msgs/Header` the controller reads. -/
structure Header where
  frame_id : String
deriving DecidableEq

/-- The message `geometry_msgs/Point`. -/
structure Point (α : Type) where
  x : α
  y : α
  z : α
deriving DecidableEq

/-- The message `geometry_msgs/Quaternion`. -/
structure Quaternion (α : Type) where
  x : α
  y : α
  z : α
  w : α
deriving DecidableEq

/-- The message `geometry_msgs/Pose`. -/
structure Pose (α : Type) where
  position : Point α
  orientation : Quaternion α
deriving DecidableEq

/-- The message `geometry_msgs/PoseStamped`. -/
structure PoseStamped (α : Type) where
  header : Header
  pose : Pose α
deriving DecidableEq

end geometry_msgs

namespace franka_msgs

/-- The three transform arrays of `franka_msgs/FrankaState` that `update` writes,
each a fixed array of 16 scalars. -/
structure FrankaState (α : Type) where
  O_T_EE : Fin 16 → α
  F_T_EE : Fin 16 → α
  EE_T_K : Fin 16 → α

end franka_msgs

namespace cartesian_motion_controller

open KDL

/-- The type `ctrl::Vector6D`: six scalars, indexed `0..5`. -/
abbrev Vector6D (α : Type) : Type := Fin 6 → α

/-- The members of `CartesianControllerBase` that the controller calls, as
parameters acting on the base state `σ` (forward dynamics solver, simulated joint
state, hardware handles). -/
structure Base (α σ : Type) where
  starting : σ → σ
  getEndEffectorPose : σ → Frame α
  computeJointControlCmds : Vector6D α → α → σ → σ
  writeJointControlCmds : σ → σ

/-- A call made by `update` into the base class, with its arguments. -/
inductive Call (α : Type) where
  | computeJointControlCmds (error : Vector6D α) (period : α)
  | writeJointControlCmds

/-- State of a `CartesianMotionController`. `base`, `m_robot_base_link` and
`m_iterations` belong to the base class; `m_current_frame`, `m_target_frame` and
`m_frankaState` are the controller's members. The last three fields record what
the controller hands to the outside: the records published on
`m_frankaState_publisher`, the calls into the base class, and the warnings handed
to the throttled logger. -/
structure CartesianMotionController (α σ : Type) where
  base : σ
  m_robot_base_link : String
  m_iterations : Int
  m_current_frame : Frame α
  m_target_frame : Frame α
  m_frankaState : franka_msgs.FrankaState α
  published : List (franka_msgs.FrankaState α)
  calls : List (Call α)
  warnings : List String

variable {α σ : Type}

/-- The method `starting`: reset the base class, read the pose, start where we are. -/
def starting (B : Base α σ) (c : CartesianMotionController α σ) :
    CartesianMotionController α σ :=
  let base := B.starting c.base
  let m_current_frame := B.getEndEffectorPose base
  { c with base := base, m_current_frame := m_current_frame, m_target_frame := m_current_frame }

/-- The method `computeMotionError`: returns the error and the controller with
`m_current_frame` refreshed from the solver. -/
def computeMotionError [LinearOrderedField α] (K : Numeric α) (B : Base α σ)
    (c : CartesianMotionController α σ) : Vector6D α × CartesianMotionController α σ :=
  let m_current_frame := B.getEndEffectorPose c.base
  let error_kdl_M := c.m_target_frame.M.mul m_current_frame.M.Inverse
  let error_kdl_p := c.m_target_frame.p.sub m_current_frame.p
  let rot_axis : Vector α := Vector.Zero
  let r := K.GetRotAngle error_kdl_M rot_axis
  let rot_axis := r.1
  let angle := r.2
  let n := K.Normalize error_kdl_p
  let error_kdl_p := n.1
  let distance := n.2
  let max_angle : α := 1.0
  let max_distance : α := 1.0
  let angle := boost.clamp angle (-max_angle) max_angle
  let distance := boost.clamp distance (-max_distance) max_distance
  let rot_axis := rot_axis.scale angle
  let error_kdl_p := error_kdl_p.scale distance
  (![error_kdl_p.x, error_kdl_p.y, error_kdl_p.z, rot_axis.x, rot_axis.y, rot_axis.z],
   { c with m_current_frame := m_current_frame })

/-- The body of the loop in the generic `update`: one internal simulation step. -/
def subStep [LinearOrderedField α] (K : Numeric α) (B : Base α σ)
    (c : CartesianMotionController α σ) : CartesianMotionController α σ :=
  let internal_period : α := 0.02
  let e := computeMotionError K B c
  let error := e.1
  let c := e.2
  { c with base := B.computeJointControlCmds error internal_period c.base,
           calls := c.calls ++ [Call.computeJointControlCmds error internal_period] }

/-- The loop body run `n` times in a row. -/
def subSteps [LinearOrderedField α] (K : Numeric α) (B : Base α σ) :
    Nat → CartesianMotionController α σ → CartesianMotionController α σ
  | 0, c => c
  | n + 1, c => subSteps K B n (subStep K B c)

/-- The first part of the generic `update`: read the pose, fill the `O_T_EE`, `F_T_EE`
and `EE_T_K` arrays of `m_frankaState`, and publish the record. -/
def publishFrankaState [LinearOrderedField α] (B : Base α σ)
    (c : CartesianMotionController α σ) : CartesianMotionController α σ :=
  let m_current_frame := B.getEndEffectorPose c.base
  let O := c.m_frankaState.O_T_EE
  let O := Function.update O 12 m_current_frame.p.x
  let O := Function.update O 13 m_current_frame.p.y
  let O := Function.update O 14 m_current_frame.p.z
  let O := Function.update O 0 (m_current_frame.M.Inverse.data 0)
  let O := Function.update O 1 (m_current_frame.M.Inverse.data 3)
  let O := Function.update O 2 (m_current_frame.M.Inverse.data 6)
  let O := Function.update O 4 (m_current_frame.M.Inverse.data 1)
  let O := Function.update O 5 (m_current_frame.M.Inverse.data 4)
  let O := Function.update O 6 (m_current_frame.M.Inverse.data 7)
  let O := Function.update O 8 (m_current_frame.M.Inverse.data 2)
  let O := Function.update O 9 (m_current_frame.M.Inverse.data 5)
  let O := Function.update O 10 (m_current_frame.M.Inverse.data 8)
  let F := c.m_frankaState.F_T_EE
  let F := Function.update F 12 1.000
  let F := Function.update F 13 2.000
  let F := Function.update F 14 3.000
  let E := c.m_frankaState.EE_T_K
  let E := Function.update E 12 1.000
  let E := Function.update E 13 2.000
  let E := Function.update E 14 3.000
  let m_frankaState : franka_msgs.FrankaState α := ⟨O, F, E⟩
  { c with m_current_frame := m_current_frame, m_frankaState := m_frankaState,
           published := c.published ++ [m_frankaState] }

/-- The generic method `update` (position and effort interfaces): the telemetry
part, the loop, the final write. The loop `for (int i = 0; i < m_iterations; ++i)`
runs its body `m_iterations.toNat` times: not at all for a count that is not
positive; the body does not read `i`. -/
def update [LinearOrderedField α] (K : Numeric α) (B : Base α σ) (time period : α)
    (c : CartesianMotionController α σ) : CartesianMotionController α σ :=
  let c := publishFrankaState B c
  let c := subSteps K B c.m_iterations.toNat c
  { c with base := B.writeJointControlCmds c.base,
           calls := c.calls ++ [Call.writeJointControlCmds] }

/-- The specialisation of `update` for `hardware_interface::VelocityJointInterface`:
one step only. -/
def updateVelocity [LinearOrderedField α] (K : Numeric α) (B : Base α σ) (time period : α)
    (c : CartesianMotionController α σ) : CartesianMotionController α σ :=
  let internal_period : α := 0.02
  let e := computeMotionError K B c
  let error := e.1
  let c := e.2
  let c := { c with base := B.computeJointControlCmds error internal_period c.base,
                    calls := c.calls ++ [Call.computeJointControlCmds error internal_period] }
  { c with base := B.writeJointControlCmds c.base,
           calls := c.calls ++ [Call.writeJointControlCmds] }

/-- The method `targetFrameCallback`. -/
def targetFrameCallback [Ring α] (c : CartesianMotionController α σ)
    (target : geometry_msgs.PoseStamped α) : CartesianMotionController α σ :=
  if target.header.frame_id ≠ c.m_robot_base_link then
    { c with warnings := c.warnings ++
        ["Got target pose in wrong reference frame. Expected: " ++ c.m_robot_base_link ++
          " but got " ++ target.header.frame_id] }
  else
    { c with m_target_frame :=
        { M := Rotation.Quaternion target.pose.orientation.x target.pose.orientation.y
                 target.pose.orientation.z target.pose.orientation.w,
          p := ⟨target.pose.position.x, target.pose.position.y, target.pose.position.z⟩ } }

end cartesian_motion_controller

/-! ## The quantities the error law is stated in -/

namespace cartesian_motion_controller

open KDL

variable {α σ : Type}

/-- The rotation delta `target.M * inverse(current.M)`. -/
def rotationDelta [Add α] [Mul α] (target current : Frame α) : Rotation α :=
  target.M.mul current.M.Inverse

/-- The translation delta `target.p - current.p`. -/
def translationDelta [Sub α] (target current : Frame α) : Vector α :=
  target.p.sub current.p

/-- The axis the library extracts from the rotation delta. -/
def deltaAxis [LinearOrderedField α] (K : Numeric α) (target current : Frame α) : Vector α :=
  (K.GetRotAngle (rotationDelta target current) Vector.Zero).1

/-- The angle the library extracts from the rotation delta. -/
def deltaAngle [LinearOrderedField α] (K : Numeric α) (target current : Frame α) : α :=
  (K.GetRotAngle (rotationDelta target current) Vector.Zero).2

/-- The norm the library returns for the translation delta. -/
def deltaDistance [LinearOrderedField α] (K : Numeric α) (target current : Frame α) : α :=
  (K.Normalize (translationDelta target current)).2

end cartesian_motion_controller

namespace cartesian_motion_controller

open KDL

variable {α σ : Type}

/-- The base state after `i` internal steps of one cycle, as the specification words
the iteration: each step hands `computeJointControlCmds` the error that
`computeMotionError` returns for the base state reached so far and the stored target,
together with the period 0.02. -/
def solverAfter [LinearOrderedField α] (K : Numeric α) (B : Base α σ)
    (c : CartesianMotionController α σ) : Nat → σ
  | 0 => c.base
  | i + 1 =>
      B.computeJointControlCmds
        (computeMotionError K B { c with base := solverAfter K B c i }).1 0.02
        (solverAfter K B c i)

/-- The target frame `targetFrameCallback` stores for an accepted message. -/
def frameOfMessage [Ring α] (target : geometry_msgs.PoseStamped α) : Frame α :=
  { M := Rotation.Quaternion target.pose.orientation.x target.pose.orientation.y
           target.pose.orientation.z target.pose.orientation.w,
    p := ⟨target.pose.position.x, target.pose.position.y, target.pose.position.z⟩ }

/-- The last message of a sequence whose frame id equals the base link, if any. -/
def lastAccepted (base_link : String) (msgs : List (geometry_msgs.PoseStamped α)) :
    Option (geometry_msgs.PoseStamped α) :=
  (msgs.filter (fun m => decide (m.header.frame_id = base_link))).getLast?

/-- The frame of the last accepted message of a sequence, or `init` when the sequence
has no accepted message. -/
def latestTarget [Ring α] (base_link : String) (msgs : List (geometry_msgs.PoseStamped α))
    (init : Frame α) : Frame α :=
  match lastAccepted base_link msgs with
  | some m => frameOfMessage m
  | none => init

/-- The loop of the generic `update` with target messages delivered while it runs:
`arrivals` holds, for each sub-step in turn, the messages that `targetFrameCallback`
handles after the previous sub-step and before this one. The source has no lock and
no copy of the target: the callback writes `m_target_frame`, and
`computeMotionError` reads it, directly. -/
def subStepsInterleaved [LinearOrderedField α] (K : Numeric α) (B : Base α σ) :
    List (List (geometry_msgs.PoseStamped α)) → CartesianMotionController α σ →
      CartesianMotionController α σ
  | [], c => c
  | msgs :: rest, c =>
      subStepsInterleaved K B rest (subStep K B (msgs.foldl targetFrameCallback c))

/-- The loop as the specification words it, for comparison with `subStepsInterleaved`:
every sub-step computes its error against one `snapshot` of the target taken at the
start of the cycle; messages delivered in between only change the stored target. -/
def subStepsSnapshotSpec [LinearOrderedField α] (K : Numeric α) (B : Base α σ)
    (snapshot : Frame α) :
    List (List (geometry_msgs.PoseStamped α)) → CartesianMotionController α σ →
      CartesianMotionController α σ
  | [], c => c
  | msgs :: rest, c =>
      let c1 := msgs.foldl targetFrameCallback c
      let c2 := subStep K B { c1 with m_target_frame := snapshot }
      subStepsSnapshotSpec K B snapshot rest { c2 with m_target_frame := c1.m_target_frame }

end cartesian_motion_controller

/-! ## A rational instance of the parameters, for concrete evaluation -/

namespace reference

open KDL cartesian_motion_controller

/-- Square root on `ℚ`: exact on squares of rationals, the quotient of the integer
square roots of numerator and denominator otherwise. -/
def ratSqrt (q : ℚ) : ℚ := (Nat.sqrt q.num.natAbs : ℚ) / (Nat.sqrt q.den : ℚ)

/-- The default tolerance `KDL::epsilon`. -/
def epsilon : ℚ := 0.000001

/-- A rational approximation of the arctangent on `[-1, 1]`. -/
def atanApprox (t : ℚ) : ℚ := t / (1 + 7 / 25 * (t * t))

/-- A rational approximation of `π`. -/
def piApprox : ℚ := 355 / 113

/-- A rational approximation of `atan2 y x` for `0 ≤ y`. -/
def atan2Approx (y x : ℚ) : ℚ :=
  if 0 < x ∧ y ≤ x then atanApprox (y / x)
  else if 0 < y ∧ -y ≤ x then piApprox / 2 - atanApprox (x / y)
  else if x < 0 then piApprox + atanApprox (y / x)
  else 0

/-- A rational instance of the two library routines. `Normalize` divides by the
rational square root of the squared norm and falls back to the x axis below the
tolerance; `GetRotAngle` reads the axis off the antisymmetric part and the angle
off the trace, and falls back to the z axis with angle zero at a symmetric matrix
of positive trace. -/
def numeric : Numeric ℚ where
  Normalize v :=
    let n := ratSqrt v.normSq
    if n < epsilon then (⟨1, 0, 0⟩, n) else (v.divide n, n)
  GetRotAngle R _ :=
    let axis : Vector ℚ := ⟨R.Yz - R.Zy, R.Zx - R.Xz, R.Xy - R.Yx⟩
    let f := (R.Xx + R.Yy + R.Zz - 1) / 2
    let m := ratSqrt axis.normSq
    if m < epsilon then
      if 0 < f then (⟨0, 0, 1⟩, 0)
      else (⟨ratSqrt ((R.Xx + 1) / 2), ratSqrt ((R.Yy + 1) / 2), ratSqrt ((R.Zz + 1) / 2)⟩,
            piApprox)
    else (axis.divide m, atan2Approx (m / 2) f)

/-- A stand-in for the base class whose state is the end-effector pose itself: a
control step moves the origin by the translational error times the period. -/
def base : Base ℚ (Frame ℚ) where
  starting s := s
  getEndEffectorPose s := s
  computeJointControlCmds error period s :=
    { s with p := ⟨s.p.x + error 0 * period, s.p.y + error 1 * period,
                   s.p.z + error 2 * period⟩ }
  writeJointControlCmds s := s

/-- A stand-in for the base class whose pose never moves. -/
def fixedBase : Base ℚ (Frame ℚ) where
  starting s := s
  getEndEffectorPose s := s
  computeJointControlCmds _ _ s := s
  writeJointControlCmds s := s

/-- A controller with base link `base_link`, the solver at `pose`, the stored target
`target`, the given iteration count, and nothing published or called yet. -/
def controller (pose target : Frame ℚ) (iterations : Int) :
    CartesianMotionController ℚ (Frame ℚ) :=
  { base := pose
    m_robot_base_link := "base_link"
    m_iterations := iterations
    m_current_frame := Frame.Identity
    m_target_frame := target
    m_frankaState := ⟨fun _ => 0, fun _ => 0, fun _ => 0⟩
    published := []
    calls := []
    warnings := [] }

/-- The frame with identity rotation at the point `(x, y, z)`. -/
def frameAt (x y z : ℚ) : Frame ℚ := ⟨⟨x, y, z⟩, Rotation.Identity⟩

/-- The quarter turn about the z axis. -/
def quarterTurnZ : Rotation ℚ := ⟨0, -1, 0, 1, 0, 0, 0, 0, 1⟩

/-- A target message at the point `(x, y, z)` with the identity quaternion. -/
def message (frame_id : String) (x y z : ℚ) : geometry_msgs.PoseStamped ℚ :=
  { header := ⟨frame_id⟩, pose := { position := ⟨x, y, z⟩, orientation := ⟨0, 0, 0, 1⟩ } }

end reference

/-! ## Auxiliary facts -/

namespace boost

variable {α : Type}

theorem clamp_eq_self [LinearOrder α] {val lo hi : α} (h1 : lo ≤ val) (h2 : val ≤ hi) :
    clamp val lo hi = val := by
  unfold clamp
  rw [if_neg (not_lt.mpr h1), if_neg (not_lt.mpr h2)]

theorem clamp_eq_hi [LinearOrder α] {val lo hi : α} (h1 : lo ≤ hi) (h2 : hi < val) :
    clamp val lo hi = hi := by
  unfold clamp
  rw [if_neg (not_lt.mpr (le_trans h1 (le_of_lt h2))), if_pos h2]

end boost

namespace KDL

variable {α : Type}

/-- Beyond the bound, scaling the normalised vector by the clamped norm gives the
vector divided by its norm, of squared length one. -/
theorem IsNormalized.scale_clamp_far [LinearOrderedField α] {v : Vector α} {r : Vector α × α}
    (h : IsNormalized v r) (hlt : 1 < r.2) :
    r.1.scale (boost.clamp r.2 (-1.0) 1.0) = v.divide r.2 ∧
      (r.1.scale (boost.clamp r.2 (-1.0) 1.0)).normSq = 1 := by
  obtain ⟨h0, hsq, hdir⟩ := h
  have e1 : (1.0 : α) = 1 := by norm_num
  have hz : r.2 ≠ 0 := by intro h; rw [h] at hlt; linarith
  have hs : r.1.scale (boost.clamp r.2 (-1.0) 1.0) = v.divide r.2 := by
    rw [e1, boost.clamp_eq_hi (by norm_num) hlt, hdir hz]
    simp [Vector.scale]
  refine ⟨hs, ?_⟩
  rw [hs]
  obtain ⟨x, y, z⟩ := v
  simp only [Vector.divide, Vector.normSq] at hsq ⊢
  field_simp
  linarith

end KDL

namespace reference

open KDL cartesian_motion_controller

theorem ratSqrt_mul_self (r : ℚ) : ratSqrt (r * r) = |r| := by
  unfold ratSqrt
  rw [Rat.mul_self_num, Rat.mul_self_den, Int.natAbs_mul, Nat.sqrt_eq, Nat.sqrt_eq]
  have h : ((r.num.natAbs : ℕ) : ℚ) = |(r.num : ℚ)| := by
    rw [← Int.cast_abs, ← Int.cast_natCast, Int.natCast_natAbs]
  rw [h, ← abs_of_nonneg (Nat.cast_nonneg r.den : (0 : ℚ) ≤ r.den), ← abs_div,
    Rat.num_div_den]

theorem ratSqrt_zero : ratSqrt 0 = 0 := by
  simpa using ratSqrt_mul_self 0

theorem ratSqrt_one : ratSqrt 1 = 1 := by
  simpa using ratSqrt_mul_self 1

theorem ratSqrt_four : ratSqrt 4 = 2 := by
  have h := ratSqrt_mul_self 2
  norm_num at h
  exact h

theorem ratSqrt_twentyfive : ratSqrt 25 = 5 := by
  have h := ratSqrt_mul_self 5
  norm_num at h
  exact h

theorem Normalize_zero : numeric.Normalize Vector.Zero = (⟨1, 0, 0⟩, 0) := by
  have h : (0 : ℚ) < epsilon := by norm_num [epsilon]
  simp [numeric, Vector.Zero, Vector.normSq, ratSqrt_zero, h]

theorem Normalize_unit_x : numeric.Normalize ⟨1, 0, 0⟩ = (⟨1, 0, 0⟩, 1) := by
  have h : ¬ (1 : ℚ) < epsilon := by norm_num [epsilon]
  simp [numeric, Vector.normSq, Vector.divide, ratSqrt_one, h]

theorem Normalize_five_x : numeric.Normalize ⟨5, 0, 0⟩ = (⟨1, 0, 0⟩, 5) := by
  have h : ¬ (5 : ℚ) < epsilon := by norm_num [epsilon]
  have h25 : (5 : ℚ) * 5 = 25 := by norm_num
  simp [numeric, Vector.normSq, Vector.divide, h25, ratSqrt_twentyfive, h]

theorem GetRotAngle_Identity (a : Vector ℚ) :
    numeric.GetRotAngle Rotation.Identity a = (⟨0, 0, 1⟩, 0) := by
  have h : (0 : ℚ) < epsilon := by norm_num [epsilon]
  simp [numeric, Rotation.Identity, Vector.normSq, ratSqrt_zero, h]

theorem GetRotAngle_quarterTurnZ (a : Vector ℚ) :
    numeric.GetRotAngle quarterTurnZ a = (⟨0, 0, 1⟩, 355 / 226) := by
  have h : ¬ (2 : ℚ) < epsilon := by norm_num [epsilon]
  have h4 : ((0 : ℚ) - 0) * (0 - 0) + (0 - 0) * (0 - 0) + (1 - -1) * (1 - -1) = 4 := by
    norm_num
  simp only [numeric, quarterTurnZ, Vector.normSq, Vector.divide, h4, ratSqrt_four, h,
    if_false]
  norm_num [atan2Approx, atanApprox, piApprox]

theorem numeric_Normalize (v : Vector ℚ) :
    numeric.Normalize v = v.Normalize (fun w => ratSqrt w.normSq) epsilon := rfl

theorem rotationDelta_frameAt (a b c a' b' c' : ℚ) :
    rotationDelta (frameAt a b c) (frameAt a' b' c') = Rotation.Identity := by
  simp [rotationDelta, frameAt, Rotation.mul, Rotation.Inverse, Rotation.Identity]

theorem translationDelta_frameAt (a b c a' b' c' : ℚ) :
    translationDelta (frameAt a b c) (frameAt a' b' c') = ⟨a - a', b - b', c - c'⟩ := rfl

theorem deltaAngle_frameAt (a b c a' b' c' : ℚ) :
    deltaAngle numeric (frameAt a b c) (frameAt a' b' c') = 0 := by
  rw [deltaAngle, rotationDelta_frameAt, GetRotAngle_Identity]

theorem deltaAxis_frameAt (a b c a' b' c' : ℚ) :
    deltaAxis numeric (frameAt a b c) (frameAt a' b' c') = ⟨0, 0, 1⟩ := by
  rw [deltaAxis, rotationDelta_frameAt, GetRotAngle_Identity]

end reference

/-! ## The error law -/

namespace cartesian_motion_controller

open KDL

variable {α σ : Type}

/-- The error returned by `computeMotionError`, in terms of the two frames. -/
theorem computeMotionError_fst [LinearOrderedField α] (K : Numeric α) (B : Base α σ)
    (c : CartesianMotionController α σ) (current target : Frame α)
    (hcur : B.getEndEffectorPose c.base = current) (htgt : c.m_target_frame = target) :
    (computeMotionError K B c).1 =
      ![((K.Normalize (translationDelta target current)).1.scale
            (boost.clamp (deltaDistance K target current) (-1.0) 1.0)).x,
        ((K.Normalize (translationDelta target current)).1.scale
            (boost.clamp (deltaDistance K target current) (-1.0) 1.0)).y,
        ((K.Normalize (translationDelta target current)).1.scale
            (boost.clamp (deltaDistance K target current) (-1.0) 1.0)).z,
        ((deltaAxis K target current).scale
            (boost.clamp (deltaAngle K target current) (-1.0) 1.0)).x,
        ((deltaAxis K target current).scale
            (boost.clamp (deltaAngle K target current) (-1.0) 1.0)).y,
        ((deltaAxis K target current).scale
            (boost.clamp (deltaAngle K target current) (-1.0) 1.0)).z] := by
  subst hcur htgt
  rfl

/-- The state returned by `computeMotionError` differs from the state it was given
in `m_current_frame` only. -/
theorem computeMotionError_snd [LinearOrderedField α] (K : Numeric α) (B : Base α σ)
    (c : CartesianMotionController α σ) :
    (computeMotionError K B c).2 = { c with m_current_frame := B.getEndEffectorPose c.base } :=
  rfl

/-- The rotation delta of a frame with orthonormal rotation against itself is the
identity. -/
theorem rotationDelta_self [LinearOrderedField α] (x : Frame α) (h : x.M.IsOrthonormal) :
    rotationDelta x x = Rotation.Identity := by
  obtain ⟨h1, h2, h3, h4, h5, h6⟩ := h
  simp only [rotationDelta, Rotation.mul, Rotation.Inverse, Rotation.Identity,
    Rotation.mk.injEq]
  refine ⟨h1, h4, h5, ?_, h2, h6, ?_, ?_, h3⟩
  · rw [← h4]; ring
  · rw [← h5]; ring
  · rw [← h6]; ring

/-- The translation delta of a frame against itself is zero. -/
theorem translationDelta_self [LinearOrderedField α] (x : Frame α) :
    translationDelta x x = Vector.Zero := by
  simp [translationDelta, Vector.sub, Vector.Zero]

/-- Zero error for equal frames, given the two degenerate library answers. -/
theorem computeMotionError_eq_zero [LinearOrderedField α] (K : Numeric α) (B : Base α σ)
    (c : CartesianMotionController α σ) (x : Frame α)
    (hcur : B.getEndEffectorPose c.base = x) (htgt : c.m_target_frame = x)
    (hM : x.M.IsOrthonormal)
    (hI : (K.GetRotAngle Rotation.Identity Vector.Zero).2 = 0)
    (hZ : (K.Normalize Vector.Zero).2 = 0) :
    (computeMotionError K B c).1 = ![0, 0, 0, 0, 0, 0] := by
  have e1 : (1.0 : α) = 1 := by norm_num
  have hc : boost.clamp (0 : α) (-1.0) 1.0 = 0 := by
    rw [e1]; exact boost.clamp_eq_self (by norm_num) (by norm_num)
  rw [computeMotionError_fst K B c x x hcur htgt]
  simp only [deltaDistance, deltaAngle, deltaAxis, rotationDelta_self x hM,
    translationDelta_self, hI, hZ, hc, Vector.scale, mul_zero]

/-- C2: whenever the translation delta `d = target.p - current.p` has Euclidean norm
above 1.0, components 0..2 of the error are `d` divided by its norm: a vector of
squared length exactly 1 along `d`. Relied on from the library: `Normalize` returns
the Euclidean norm and leaves the vector divided by it (`IsNormalized`). -/
theorem computeMotionError_translation_capped [LinearOrderedField α] (K : Numeric α)
    (B : Base α σ) (c : CartesianMotionController α σ) (current target : Frame α)
    (hcur : B.getEndEffectorPose c.base = current) (htgt : c.m_target_frame = target)
    (hN : IsNormalized (translationDelta target current)
            (K.Normalize (translationDelta target current)))
    (hdist : 1.0 < deltaDistance K target current) :
    (computeMotionError K B c).1 0 =
        (translationDelta target current).x / deltaDistance K target current ∧
    (computeMotionError K B c).1 1 =
        (translationDelta target current).y / deltaDistance K target current ∧
    (computeMotionError K B c).1 2 =
        (translationDelta target current).z / deltaDistance K target current ∧
    (computeMotionError K B c).1 0 * (computeMotionError K B c).1 0 +
      (computeMotionError K B c).1 1 * (computeMotionError K B c).1 1 +
      (computeMotionError K B c).1 2 * (computeMotionError K B c).1 2 = 1 := by
  have e1 : (1.0 : α) = 1 := by norm_num
  rw [e1] at hdist
  obtain ⟨hp, hlen⟩ := hN.scale_clamp_far hdist
  rw [computeMotionError_fst K B c current target hcur htgt]
  simp only [deltaDistance] at hdist ⊢
  rw [hp] at hlen ⊢
  exact ⟨rfl, rfl, rfl, hlen⟩

/-- C2, evaluated: from the identity pose at the origin to the point `(5,0,0)` with
identity rotation the norm is 5 and the translational part of the error is
`(1,0,0)`. -/
theorem computeMotionError_translation_capped_witness :
    deltaDistance reference.numeric (reference.frameAt 5 0 0) (reference.frameAt 0 0 0) = 5 ∧
    (computeMotionError reference.numeric reference.base
        (reference.controller (reference.frameAt 0 0 0) (reference.frameAt 5 0 0) 1)).1 0 = 1 ∧
    (computeMotionError reference.numeric reference.base
        (reference.controller (reference.frameAt 0 0 0) (reference.frameAt 5 0 0) 1)).1 1 = 0 ∧
    (computeMotionError reference.numeric reference.base
        (reference.controller (reference.frameAt 0 0 0) (reference.frameAt 5 0 0) 1)).1 2 = 0 := by
  have hd : deltaDistance reference.numeric (reference.frameAt 5 0 0)
      (reference.frameAt 0 0 0) = 5 := by
    rw [deltaDistance, reference.translationDelta_frameAt]
    norm_num [reference.Normalize_five_x]
  have h := computeMotionError_translation_capped reference.numeric reference.base
    (reference.controller (reference.frameAt 0 0 0) (reference.frameAt 5 0 0) 1)
    (reference.frameAt 0 0 0) (reference.frameAt 5 0 0) rfl rfl
    (by
      rw [reference.translationDelta_frameAt]
      norm_num [reference.Normalize_five_x, IsNormalized, Vector.normSq, Vector.divide])
    (by rw [hd]; norm_num)
  rw [hd, reference.translationDelta_frameAt] at h
  refine ⟨hd, ?_, ?_, ?_⟩
  · rw [h.1]; norm_num
  · rw [h.2.1]; norm_num
  · rw [h.2.2.1]; norm_num

/-- C3: whenever the rotation delta `target.M * inverse(current.M)` has angle above
1.0, components 3..5 of the error are the extracted rotation axis itself, of squared
length exactly 1. Relied on from the library: the axis `GetRotAngle` leaves is
normalised, as the source notes at the call. -/
theorem computeMotionError_rotation_capped [LinearOrderedField α] (K : Numeric α)
    (B : Base α σ) (c : CartesianMotionController α σ) (current target : Frame α)
    (hcur : B.getEndEffectorPose c.base = current) (htgt : c.m_target_frame = target)
    (hunit : (deltaAxis K target current).normSq = 1)
    (hangle : 1.0 < deltaAngle K target current) :
    (computeMotionError K B c).1 3 = (deltaAxis K target current).x ∧
    (computeMotionError K B c).1 4 = (deltaAxis K target current).y ∧
    (computeMotionError K B c).1 5 = (deltaAxis K target current).z ∧
    (computeMotionError K B c).1 3 * (computeMotionError K B c).1 3 +
      (computeMotionError K B c).1 4 * (computeMotionError K B c).1 4 +
      (computeMotionError K B c).1 5 * (computeMotionError K B c).1 5 = 1 := by
  have e1 : (1.0 : α) = 1 := by norm_num
  rw [e1] at hangle
  have ha : boost.clamp (deltaAngle K target current) (-1.0) 1.0 = 1 := by
    rw [e1]; exact boost.clamp_eq_hi (by norm_num) hangle
  have hs : (deltaAxis K target current).scale 1 = deltaAxis K target current := by
    simp [Vector.scale]
  rw [computeMotionError_fst K B c current target hcur htgt, ha, hs]
  exact ⟨rfl, rfl, rfl, hunit⟩

/-- C3, evaluated: from the identity pose to a quarter turn about the z axis the
extracted angle exceeds 1.0 and the rotational part of the error is the axis
`(0,0,1)`. -/
theorem computeMotionError_rotation_capped_witness :
    1.0 < deltaAngle reference.numeric ⟨Vector.Zero, reference.quarterTurnZ⟩
            (reference.frameAt 0 0 0) ∧
    (computeMotionError reference.numeric reference.base
        (reference.controller (reference.frameAt 0 0 0)
          ⟨Vector.Zero, reference.quarterTurnZ⟩ 1)).1 3 = 0 ∧
    (computeMotionError reference.numeric reference.base
        (reference.controller (reference.frameAt 0 0 0)
          ⟨Vector.Zero, reference.quarterTurnZ⟩ 1)).1 4 = 0 ∧
    (computeMotionError reference.numeric reference.base
        (reference.controller (reference.frameAt 0 0 0)
          ⟨Vector.Zero, reference.quarterTurnZ⟩ 1)).1 5 = 1 := by
  have hR : rotationDelta ⟨Vector.Zero, reference.quarterTurnZ⟩ (reference.frameAt 0 0 0) =
      reference.quarterTurnZ := by
    simp [rotationDelta, reference.frameAt, reference.quarterTurnZ, Rotation.mul,
      Rotation.Inverse, Rotation.Identity]
  have hang : deltaAngle reference.numeric ⟨Vector.Zero, reference.quarterTurnZ⟩
      (reference.frameAt 0 0 0) = 355 / 226 := by
    rw [deltaAngle, hR, reference.GetRotAngle_quarterTurnZ]
  have hax : deltaAxis reference.numeric ⟨Vector.Zero, reference.quarterTurnZ⟩
      (reference.frameAt 0 0 0) = ⟨0, 0, 1⟩ := by
    rw [deltaAxis, hR, reference.GetRotAngle_quarterTurnZ]
  have h := computeMotionError_rotation_capped reference.numeric reference.base
    (reference.controller (reference.frameAt 0 0 0) ⟨Vector.Zero, reference.quarterTurnZ⟩ 1)
    (reference.frameAt 0 0 0) ⟨Vector.Zero, reference.quarterTurnZ⟩ rfl rfl
    (by rw [hax]; norm_num [Vector.normSq])
    (by rw [hang]; norm_num)
  rw [hax] at h
  exact ⟨by rw [hang]; norm_num, h.1, h.2.1, h.2.2.1⟩

/-- C4: when the solver's end-effector pose and the stored target are one and the same
frame `x`, `computeMotionError` returns the zero 6-vector, whatever axis and
direction the library leaves behind in the degenerate cases. `x` is a rigid pose: its
rotation matrix is orthonormal. Relied on from the library: the angle of the identity
rotation is zero and the norm of the zero vector is zero. -/
theorem computeMotionError_same_frame [LinearOrderedField α] (K : Numeric α) (B : Base α σ)
    (c : CartesianMotionController α σ) (x : Frame α)
    (hcur : B.getEndEffectorPose c.base = x) (htgt : c.m_target_frame = x)
    (hM : x.M.IsOrthonormal)
    (hI : (K.GetRotAngle Rotation.Identity Vector.Zero).2 = 0)
    (hZ : (K.Normalize Vector.Zero).2 = 0) :
    (computeMotionError K B c).1 = ![0, 0, 0, 0, 0, 0] :=
  computeMotionError_eq_zero K B c x hcur htgt hM hI hZ

/-- C4, evaluated: pose and target both at `(1,2,3)`, turned a quarter about z. -/
theorem computeMotionError_same_frame_witness :
    (computeMotionError reference.numeric reference.base
        (reference.controller ⟨⟨1, 2, 3⟩, reference.quarterTurnZ⟩
          ⟨⟨1, 2, 3⟩, reference.quarterTurnZ⟩ 1)).1 = ![0, 0, 0, 0, 0, 0] :=
  computeMotionError_same_frame reference.numeric reference.base
    (reference.controller ⟨⟨1, 2, 3⟩, reference.quarterTurnZ⟩
      ⟨⟨1, 2, 3⟩, reference.quarterTurnZ⟩ 1)
    ⟨⟨1, 2, 3⟩, reference.quarterTurnZ⟩ rfl rfl
    (by norm_num [Rotation.IsOrthonormal, reference.quarterTurnZ])
    (by rw [reference.GetRotAngle_Identity])
    (by rw [reference.Normalize_zero])

end cartesian_motion_controller

/-! ## The target buffer -/

namespace cartesian_motion_controller

open KDL

variable {α σ : Type}

theorem targetFrameCallback_of_ne [Ring α] (c : CartesianMotionController α σ)
    (target : geometry_msgs.PoseStamped α)
    (h : target.header.frame_id ≠ c.m_robot_base_link) :
    targetFrameCallback c target =
      { c with warnings := c.warnings ++
          ["Got target pose in wrong reference frame. Expected: " ++ c.m_robot_base_link ++
            " but got " ++ target.header.frame_id] } := by
  unfold targetFrameCallback
  rw [if_pos h]

theorem targetFrameCallback_of_eq [Ring α] (c : CartesianMotionController α σ)
    (target : geometry_msgs.PoseStamped α)
    (h : target.header.frame_id = c.m_robot_base_link) :
    targetFrameCallback c target = { c with m_target_frame := frameOfMessage target } := by
  unfold targetFrameCallback
  rw [if_neg (not_not.mpr h)]
  rfl

theorem targetFrameCallback_base_link [Ring α] (c : CartesianMotionController α σ)
    (target : geometry_msgs.PoseStamped α) :
    (targetFrameCallback c target).m_robot_base_link = c.m_robot_base_link := by
  by_cases h : target.header.frame_id = c.m_robot_base_link
  · rw [targetFrameCallback_of_eq c target h]
  · rw [targetFrameCallback_of_ne c target h]

theorem foldl_targetFrameCallback_base_link [Ring α]
    (msgs : List (geometry_msgs.PoseStamped α)) (c : CartesianMotionController α σ) :
    (msgs.foldl targetFrameCallback c).m_robot_base_link = c.m_robot_base_link := by
  induction msgs generalizing c with
  | nil => rfl
  | cons m rest ih => rw [List.foldl_cons, ih, targetFrameCallback_base_link]

/-- The stored target after a sequence of callbacks is the frame of the last accepted
message, or the initial target. -/
theorem foldl_targetFrameCallback_target [Ring α]
    (msgs : List (geometry_msgs.PoseStamped α)) (c : CartesianMotionController α σ) :
    (msgs.foldl targetFrameCallback c).m_target_frame =
      latestTarget c.m_robot_base_link msgs c.m_target_frame := by
  induction msgs using List.reverseRecOn with
  | nil => rfl
  | append_singleton rest m ih =>
    rw [List.foldl_append, List.foldl_cons, List.foldl_nil]
    by_cases h : m.header.frame_id = c.m_robot_base_link
    · rw [targetFrameCallback_of_eq _ _
        (by rw [foldl_targetFrameCallback_base_link]; exact h)]
      simp [latestTarget, lastAccepted, List.filter_append, h]
    · rw [targetFrameCallback_of_ne _ _
        (by rw [foldl_targetFrameCallback_base_link]; exact h)]
      simp only [ih]
      simp [latestTarget, lastAccepted, List.filter_append, h]

/-- C5: a target message whose frame id differs from the configured base link is
handled without failure and changes nothing but the list of warnings: the stored
target frame, the base state and every other member keep their values, so the error
`computeMotionError` returns afterwards is the one it would return had the message
never arrived. -/
theorem targetFrameCallback_rejected [LinearOrderedField α]
    (c : CartesianMotionController α σ) (target : geometry_msgs.PoseStamped α)
    (h : target.header.frame_id ≠ c.m_robot_base_link) :
    (targetFrameCallback c target).m_target_frame = c.m_target_frame ∧
    (targetFrameCallback c target).m_target_frame.p = c.m_target_frame.p ∧
    (targetFrameCallback c target).m_target_frame.M = c.m_target_frame.M ∧
    (targetFrameCallback c target).base = c.base ∧
    (targetFrameCallback c target).m_robot_base_link = c.m_robot_base_link ∧
    (targetFrameCallback c target).m_iterations = c.m_iterations ∧
    (targetFrameCallback c target).m_current_frame = c.m_current_frame ∧
    (targetFrameCallback c target).calls = c.calls ∧
    (targetFrameCallback c target).published = c.published ∧
    (∀ (K : Numeric α) (B : Base α σ),
      (computeMotionError K B (targetFrameCallback c target)).1 =
        (computeMotionError K B c).1) := by
  rw [targetFrameCallback_of_ne c target h]
  exact ⟨rfl, rfl, rfl, rfl, rfl, rfl, rfl, rfl, rfl, fun _ _ => rfl⟩

/-- C5, evaluated: a message in frame `wrong_frame` for base link `base_link` leaves
the stored target at `(1,2,3)`. -/
theorem targetFrameCallback_rejected_witness :
    (targetFrameCallback
        (reference.controller (reference.frameAt 0 0 0) (reference.frameAt 1 2 3) 1)
        (reference.message "wrong_frame" 7 8 9)).m_target_frame = reference.frameAt 1 2 3 :=
  (targetFrameCallback_rejected
    (reference.controller (reference.frameAt 0 0 0) (reference.frameAt 1 2 3) 1)
    (reference.message "wrong_frame" 7 8 9) (by decide)).1

/-- C6: after any finite sequence of target messages handled by `targetFrameCallback`,
the stored target frame is the frame built from the last message of the sequence whose
frame id equals the configured base link (rotation from its quaternion `x,y,z,w`,
position from its point `x,y,z`), whatever the earlier messages and the previous
target were; it is the initial target frame if no message of the sequence has that
frame id. -/
theorem targetFrameCallback_last_accepted [Ring α]
    (msgs : List (geometry_msgs.PoseStamped α)) (c : CartesianMotionController α σ) :
    (msgs.foldl targetFrameCallback c).m_target_frame =
      (match (msgs.filter (fun m => decide (m.header.frame_id = c.m_robot_base_link))).getLast?
        with
        | some m =>
          { M := Rotation.Quaternion m.pose.orientation.x m.pose.orientation.y
                   m.pose.orientation.z m.pose.orientation.w,
            p := ⟨m.pose.position.x, m.pose.position.y, m.pose.position.z⟩ }
        | none => c.m_target_frame) :=
  foldl_targetFrameCallback_target msgs c

end cartesian_motion_controller

namespace reference

open KDL cartesian_motion_controller

theorem Normalize_along_x (a : ℚ) (ha : epsilon ≤ a) :
    numeric.Normalize ⟨a, 0, 0⟩ = (⟨1, 0, 0⟩, a) := by
  have hpos : (0 : ℚ) < a := lt_of_lt_of_le (by norm_num [epsilon]) ha
  have hsq : Vector.normSq (⟨a, 0, 0⟩ : Vector ℚ) = a * a := by
    simp only [Vector.normSq]; ring
  rw [numeric_Normalize]
  simp only [Vector.Normalize, hsq, ratSqrt_mul_self, abs_of_pos hpos, not_lt.mpr ha,
    if_false, Vector.divide, div_self (ne_of_gt hpos), zero_div]

/-- More than one unit short of the target along x, the rational instance gives the
capped error. -/
theorem error_along_x {σ : Type} (B : Base ℚ σ) (c : CartesianMotionController ℚ σ)
    (p t : ℚ) (hcur : B.getEndEffectorPose c.base = frameAt p 0 0)
    (htgt : c.m_target_frame = frameAt t 0 0) (h : 1 < t - p) :
    (computeMotionError numeric B c).1 = ![1, 0, 0, 0, 0, 0] := by
  have e1 : (1.0 : ℚ) = 1 := by norm_num
  have hc : boost.clamp (t - p) (-1.0) 1.0 = 1 := by
    rw [e1]; exact boost.clamp_eq_hi (by norm_num) h
  have h0 : boost.clamp (0 : ℚ) (-1.0) 1.0 = 0 := by
    rw [e1]; exact boost.clamp_eq_self (by norm_num) (by norm_num)
  have hv : (⟨t - p, 0 - 0, 0 - 0⟩ : Vector ℚ) = ⟨t - p, 0, 0⟩ := by norm_num
  have he : epsilon ≤ t - p := by
    have : epsilon ≤ 1 := by norm_num [epsilon]
    linarith
  rw [computeMotionError_fst numeric B c _ _ hcur htgt, deltaAngle_frameAt, deltaAxis_frameAt,
    deltaDistance, translationDelta_frameAt, hv, Normalize_along_x _ he, hc, h0]
  norm_num [Vector.scale]

/-- The stand-in solver advances by one fiftieth along x per internal step while it is
more than one unit short of the target at `(5,0,0)`. -/
theorem solverAfter_along_x (iterations : Int) (i : Nat) (h : (i : ℚ) / 50 < 4) :
    solverAfter numeric base
        (controller (frameAt 0 0 0) (frameAt 5 0 0) iterations) i =
      frameAt ((i : ℚ) / 50) 0 0 := by
  induction i with
  | zero => simp [solverAfter, controller]
  | succ i ih =>
    have hi : (i : ℚ) / 50 < 4 := by
      push_cast at h
      linarith
    rw [solverAfter, ih hi,
      error_along_x base
        { controller (frameAt 0 0 0) (frameAt 5 0 0) iterations with
          base := frameAt ((i : ℚ) / 50) 0 0 }
        ((i : ℚ) / 50) 5 rfl rfl (by linarith)]
    simp only [base, frameAt, Matrix.cons_val_zero, Matrix.cons_val_one, Matrix.head_cons,
      Matrix.cons_val_two, Matrix.tail_cons]
    push_cast
    norm_num
    ring

end reference

/-! ## The per-cycle dispatch -/

namespace cartesian_motion_controller

open KDL

variable {α σ : Type}

/-- The error depends on the controller through the base state and the stored target
only. -/
theorem computeMotionError_fst_congr [LinearOrderedField α] (K : Numeric α) (B : Base α σ)
    (c1 c2 : CartesianMotionController α σ) (hb : c1.base = c2.base)
    (ht : c1.m_target_frame = c2.m_target_frame) :
    (computeMotionError K B c1).1 = (computeMotionError K B c2).1 := by
  rw [computeMotionError_fst K B c1 _ _ rfl rfl, computeMotionError_fst K B c2 _ _ rfl rfl,
    hb, ht]

theorem subStep_calls [LinearOrderedField α] (K : Numeric α) (B : Base α σ)
    (c : CartesianMotionController α σ) :
    (subStep K B c).calls =
      c.calls ++ [Call.computeJointControlCmds (computeMotionError K B c).1 0.02] := rfl

theorem subStep_base [LinearOrderedField α] (K : Numeric α) (B : Base α σ)
    (c : CartesianMotionController α σ) :
    (subStep K B c).base =
      B.computeJointControlCmds (computeMotionError K B c).1 0.02 c.base := rfl

theorem subStep_target [LinearOrderedField α] (K : Numeric α) (B : Base α σ)
    (c : CartesianMotionController α σ) :
    (subStep K B c).m_target_frame = c.m_target_frame := rfl

theorem subStep_base_link [LinearOrderedField α] (K : Numeric α) (B : Base α σ)
    (c : CartesianMotionController α σ) :
    (subStep K B c).m_robot_base_link = c.m_robot_base_link := rfl

/-- Two runs of the loop from states with the same base state and target stay in
step. -/
theorem subSteps_congr [LinearOrderedField α] (K : Numeric α) (B : Base α σ) (n : Nat)
    (c1 c2 : CartesianMotionController α σ) (hb : c1.base = c2.base)
    (ht : c1.m_target_frame = c2.m_target_frame) :
    (subSteps K B n c1).base = (subSteps K B n c2).base ∧
      (subSteps K B n c1).m_target_frame = (subSteps K B n c2).m_target_frame := by
  induction n generalizing c1 c2 with
  | zero => exact ⟨hb, ht⟩
  | succ n ih =>
    apply ih
    · rw [subStep_base, subStep_base, computeMotionError_fst_congr K B c1 c2 hb ht, hb]
    · rw [subStep_target, subStep_target, ht]

/-- The calls made by `n` runs of the loop body. -/
theorem subSteps_calls [LinearOrderedField α] (K : Numeric α) (B : Base α σ) (n : Nat)
    (c : CartesianMotionController α σ) :
    (subSteps K B n c).calls =
      c.calls ++ (List.range n).map (fun i =>
        Call.computeJointControlCmds (computeMotionError K B (subSteps K B i c)).1 0.02) := by
  induction n generalizing c with
  | zero => simp [subSteps]
  | succ n ih =>
    rw [subSteps, ih, subStep_calls, List.range_succ_eq_map, List.map_cons, List.map_map,
      List.append_assoc]
    rfl

theorem subSteps_calls_congr [LinearOrderedField α] (K : Numeric α) (B : Base α σ) (n : Nat)
    (c1 c2 : CartesianMotionController α σ) (hb : c1.base = c2.base)
    (ht : c1.m_target_frame = c2.m_target_frame) :
    (subSteps K B n c1).calls =
      c1.calls ++ (List.range n).map (fun i =>
        Call.computeJointControlCmds (computeMotionError K B (subSteps K B i c2)).1 0.02) := by
  rw [subSteps_calls]
  congr 1
  apply List.map_congr_left
  intro i _
  rw [computeMotionError_fst_congr K B _ _ (subSteps_congr K B i c1 c2 hb ht).1
    (subSteps_congr K B i c1 c2 hb ht).2]

theorem subSteps_succ [LinearOrderedField α] (K : Numeric α) (B : Base α σ) (n : Nat)
    (c : CartesianMotionController α σ) :
    subSteps K B (n + 1) c = subStep K B (subSteps K B n c) := by
  induction n generalizing c with
  | zero => rfl
  | succ n ih =>
    show subSteps K B (n + 1) (subStep K B c) = _
    rw [ih (subStep K B c)]
    rfl

theorem subSteps_target [LinearOrderedField α] (K : Numeric α) (B : Base α σ) (n : Nat)
    (c : CartesianMotionController α σ) :
    (subSteps K B n c).m_target_frame = c.m_target_frame := by
  induction n generalizing c with
  | zero => rfl
  | succ n ih => exact ih (subStep K B c)

/-- The base state the loop reaches is the one reached by applying
`computeJointControlCmds` step by step. -/
theorem subSteps_base [LinearOrderedField α] (K : Numeric α) (B : Base α σ) (n : Nat)
    (c : CartesianMotionController α σ) :
    (subSteps K B n c).base = solverAfter K B c n := by
  induction n with
  | zero => rfl
  | succ n ih =>
    rw [subSteps_succ, subStep_base, solverAfter,
      computeMotionError_fst_congr K B (subSteps K B n c)
        { c with base := solverAfter K B c n } ih (subSteps_target K B n c), ih]

/-- C7: with a configured iteration count `n ≥ 0`, and for every outer period, one
generic `update` applies `computeJointControlCmds` to the base state exactly `n`
times and then `writeJointControlCmds` once, and the velocity `update` applies
`computeJointControlCmds` exactly once and then `writeJointControlCmds` once; each
such call receives the internal period 0.02 and the error `computeMotionError`
returns at that sub-step, i.e. for the base state reached after the earlier sub-steps
of the cycle and the stored target. Both the resulting base state and the record of
calls are given. -/
theorem update_call_sequence [LinearOrderedField α] (K : Numeric α) (B : Base α σ)
    (time period : α) (c : CartesianMotionController α σ) (n : Nat)
    (hn : c.m_iterations = (n : Int)) :
    (update K B time period c).base = B.writeJointControlCmds (solverAfter K B c n) ∧
    (update K B time period c).calls =
      c.calls ++ (List.range n).map (fun i =>
          Call.computeJointControlCmds
            (computeMotionError K B { c with base := solverAfter K B c i }).1 0.02)
        ++ [Call.writeJointControlCmds] ∧
    (updateVelocity K B time period c).base =
      B.writeJointControlCmds
        (B.computeJointControlCmds (computeMotionError K B c).1 0.02 c.base) ∧
    (updateVelocity K B time period c).calls =
      c.calls ++ [Call.computeJointControlCmds (computeMotionError K B c).1 0.02]
        ++ [Call.writeJointControlCmds] := by
  have hb : (update K B time period c).base =
      B.writeJointControlCmds
        (subSteps K B c.m_iterations.toNat (publishFrankaState B c)).base := rfl
  have hc : (update K B time period c).calls =
      (subSteps K B c.m_iterations.toNat (publishFrankaState B c)).calls
        ++ [Call.writeJointControlCmds] := rfl
  have ht : c.m_iterations.toNat = n := by rw [hn, Int.toNat_ofNat]
  rw [ht] at hb hc
  refine ⟨?_, ?_, rfl, rfl⟩
  · rw [hb, (subSteps_congr K B n (publishFrankaState B c) c rfl rfl).1, subSteps_base]
  · rw [hc, subSteps_calls_congr K B n (publishFrankaState B c) c rfl rfl]
    congr 2
    apply List.map_congr_left
    intro i _
    rw [computeMotionError_fst_congr K B (subSteps K B i c)
      { c with base := solverAfter K B c i } (subSteps_base K B i c) (subSteps_target K B i c)]

/-- C7, evaluated: with three configured iterations, the stand-in solver at the origin
and the target at `(5,0,0)`, the generic `update` hands over the capped error
`(1,0,0,0,0,0)` with period 0.02 three times, which moves the solver to
`(3/50, 0, 0)`, and then writes once. -/
theorem update_call_sequence_witness :
    (update reference.numeric reference.base 0 0.001
        (reference.controller (reference.frameAt 0 0 0) (reference.frameAt 5 0 0) 3)).base =
      reference.frameAt (3 / 50) 0 0 ∧
    (update reference.numeric reference.base 0 0.001
        (reference.controller (reference.frameAt 0 0 0) (reference.frameAt 5 0 0) 3)).calls =
      [Call.computeJointControlCmds ![1, 0, 0, 0, 0, 0] 0.02,
       Call.computeJointControlCmds ![1, 0, 0, 0, 0, 0] 0.02,
       Call.computeJointControlCmds ![1, 0, 0, 0, 0, 0] 0.02,
       Call.writeJointControlCmds] := by
  obtain ⟨hb, hc, _, _⟩ := update_call_sequence reference.numeric reference.base 0 0.001
    (reference.controller (reference.frameAt 0 0 0) (reference.frameAt 5 0 0) 3) 3 rfl
  have herr : ∀ i ∈ List.range 3,
      Call.computeJointControlCmds
        (computeMotionError reference.numeric reference.base
          { reference.controller (reference.frameAt 0 0 0) (reference.frameAt 5 0 0) 3 with
            base := solverAfter reference.numeric reference.base
              (reference.controller (reference.frameAt 0 0 0) (reference.frameAt 5 0 0) 3)
              i }).1 0.02 =
      Call.computeJointControlCmds ![1, 0, 0, 0, 0, 0] 0.02 := by
    intro i hi
    have hi3 : i < 3 := List.mem_range.mp hi
    have hq : (i : ℚ) / 50 < 4 := by
      have : (i : ℚ) < 3 := by exact_mod_cast hi3
      linarith
    rw [reference.error_along_x reference.base
      { reference.controller (reference.frameAt 0 0 0) (reference.frameAt 5 0 0) 3 with
        base := solverAfter reference.numeric reference.base
          (reference.controller (reference.frameAt 0 0 0) (reference.frameAt 5 0 0) 3) i }
      ((i : ℚ) / 50) 5 (reference.solverAfter_along_x 3 i hq) rfl (by linarith)]
  constructor
  · rw [hb, reference.solverAfter_along_x 3 3 (by norm_num)]
    norm_num [reference.base]
  · rw [hc, List.map_congr_left herr]
    rfl

/-- C8: after `starting`, the stored target frame equals the stored current frame and
both equal the end-effector pose of the solver at activation; hence in any later
state with that target stored and the solver at that pose, `computeMotionError`
returns the zero 6-vector. The pose is rigid: its rotation matrix is orthonormal.
Relied on from the library: the angle of the identity rotation is zero and the norm
of the zero vector is zero. -/
theorem starting_zero_error [LinearOrderedField α] (K : Numeric α) (B : Base α σ)
    (c : CartesianMotionController α σ)
    (hM : (B.getEndEffectorPose (B.starting c.base)).M.IsOrthonormal)
    (hI : (K.GetRotAngle Rotation.Identity Vector.Zero).2 = 0)
    (hZ : (K.Normalize Vector.Zero).2 = 0) :
    (starting B c).m_target_frame = (starting B c).m_current_frame ∧
    (starting B c).m_current_frame = B.getEndEffectorPose (starting B c).base ∧
    (starting B c).base = B.starting c.base ∧
    (computeMotionError K B (starting B c)).1 = ![0, 0, 0, 0, 0, 0] ∧
    (∀ c2 : CartesianMotionController α σ,
      c2.m_target_frame = (starting B c).m_target_frame →
      B.getEndEffectorPose c2.base = B.getEndEffectorPose (starting B c).base →
      (computeMotionError K B c2).1 = ![0, 0, 0, 0, 0, 0]) :=
  ⟨rfl, rfl, rfl,
    computeMotionError_eq_zero K B (starting B c) (B.getEndEffectorPose (B.starting c.base))
      rfl rfl hM hI hZ,
    fun c2 ht hp =>
      computeMotionError_eq_zero K B c2 (B.getEndEffectorPose (B.starting c.base))
        hp ht hM hI hZ⟩

/-- C8, evaluated: activation with the solver at `(1,2,3)`, turned a quarter about z,
and an unrelated earlier target. -/
theorem starting_zero_error_witness :
    (computeMotionError reference.numeric reference.base
        (starting reference.base
          (reference.controller ⟨⟨1, 2, 3⟩, reference.quarterTurnZ⟩
            (reference.frameAt 9 9 9) 1))).1 = ![0, 0, 0, 0, 0, 0] :=
  (starting_zero_error reference.numeric reference.base
    (reference.controller ⟨⟨1, 2, 3⟩, reference.quarterTurnZ⟩ (reference.frameAt 9 9 9) 1)
    (by norm_num [Rotation.IsOrthonormal, reference.quarterTurnZ, reference.base,
      reference.controller])
    (by rw [reference.GetRotAngle_Identity])
    (by rw [reference.Normalize_zero])).2.2.2.1

end cartesian_motion_controller

/-! ## The published end-effector pose -/

namespace cartesian_motion_controller

open KDL

variable {α σ : Type}

theorem subSteps_frankaState [LinearOrderedField α] (K : Numeric α) (B : Base α σ) (n : Nat)
    (c : CartesianMotionController α σ) :
    (subSteps K B n c).m_frankaState = c.m_frankaState ∧
      (subSteps K B n c).published = c.published := by
  induction n generalizing c with
  | zero => exact ⟨rfl, rfl⟩
  | succ n ih => exact ih (subStep K B c)

/-- C10: for the end-effector pose `(p, M)` the solver reports when the generic `update`
starts, the record that `update` publishes holds `p.x, p.y, p.z` at indices 12, 13,
14 of `O_T_EE` and, for all `r, c` in `0..2`, holds at index `4c+r` the entry
`data[3r+c]` of `inverse(M)`, which is the entry `data[3c+r]` of `M`. -/
theorem update_O_T_EE [LinearOrderedField α] (K : Numeric α) (B : Base α σ)
    (time period : α) (s : CartesianMotionController α σ) :
    (update K B time period s).published =
      s.published ++ [(update K B time period s).m_frankaState] ∧
    (update K B time period s).m_frankaState.O_T_EE 12 = (B.getEndEffectorPose s.base).p.x ∧
    (update K B time period s).m_frankaState.O_T_EE 13 = (B.getEndEffectorPose s.base).p.y ∧
    (update K B time period s).m_frankaState.O_T_EE 14 = (B.getEndEffectorPose s.base).p.z ∧
    (∀ r c : Fin 3,
      (update K B time period s).m_frankaState.O_T_EE ⟨4 * c.val + r.val, by omega⟩ =
        (B.getEndEffectorPose s.base).M.Inverse.data ⟨3 * r.val + c.val, by omega⟩) ∧
    (∀ r c : Fin 3,
      (update K B time period s).m_frankaState.O_T_EE ⟨4 * c.val + r.val, by omega⟩ =
        (B.getEndEffectorPose s.base).M.data ⟨3 * c.val + r.val, by omega⟩) := by
  have hF : (update K B time period s).m_frankaState = (publishFrankaState B s).m_frankaState :=
    (subSteps_frankaState K B _ (publishFrankaState B s)).1
  have hP : (update K B time period s).published = (publishFrankaState B s).published :=
    (subSteps_frankaState K B _ (publishFrankaState B s)).2
  rw [hF, hP]
  refine ⟨rfl, rfl, rfl, rfl, ?_, ?_⟩
  · intro r c
    fin_cases r <;> fin_cases c <;> rfl
  · intro r c
    fin_cases r <;> fin_cases c <;> rfl

end cartesian_motion_controller

/-! ## Target messages arriving during a cycle -/

namespace reference

open KDL cartesian_motion_controller

theorem frameOfMessage_message (frame_id : String) (x y z : ℚ) :
    frameOfMessage (message frame_id x y z) = frameAt x y z := by
  norm_num [frameOfMessage, message, frameAt, Rotation.Quaternion, Rotation.Identity]

theorem Identity_IsOrthonormal : (Rotation.Identity : Rotation ℚ).IsOrthonormal := by
  norm_num [Rotation.IsOrthonormal, Rotation.Identity]

/-- At the target, the rational instance gives the zero error. -/
theorem error_at_target {σ : Type} (B : Base ℚ σ) (c : CartesianMotionController ℚ σ)
    (x y z : ℚ) (hcur : B.getEndEffectorPose c.base = frameAt x y z)
    (htgt : c.m_target_frame = frameAt x y z) :
    (computeMotionError numeric B c).1 = ![0, 0, 0, 0, 0, 0] :=
  computeMotionError_eq_zero numeric B c (frameAt x y z) hcur htgt Identity_IsOrthonormal
    (by rw [GetRotAngle_Identity]) (by rw [Normalize_zero])

/-- Five units away along x, the rational instance gives the capped error. -/
theorem error_five_away {σ : Type} (B : Base ℚ σ) (c : CartesianMotionController ℚ σ)
    (hcur : B.getEndEffectorPose c.base = frameAt 0 0 0)
    (htgt : c.m_target_frame = frameAt 5 0 0) :
    (computeMotionError numeric B c).1 = ![1, 0, 0, 0, 0, 0] := by
  have e1 : (1.0 : ℚ) = 1 := by norm_num
  have h5 : boost.clamp (5 : ℚ) (-1.0) 1.0 = 1 := by
    rw [e1]; exact boost.clamp_eq_hi (by norm_num) (by norm_num)
  have h0 : boost.clamp (0 : ℚ) (-1.0) 1.0 = 0 := by
    rw [e1]; exact boost.clamp_eq_self (by norm_num) (by norm_num)
  have hv : (⟨5 - 0, 0 - 0, 0 - 0⟩ : Vector ℚ) = ⟨5, 0, 0⟩ := by norm_num
  rw [computeMotionError_fst numeric B c _ _ hcur htgt, deltaAngle_frameAt, deltaAxis_frameAt,
    deltaDistance, translationDelta_frameAt, hv, Normalize_five_x, h5, h0]
  norm_num [Vector.scale]

end reference

namespace cartesian_motion_controller

open KDL

variable {α σ : Type}

theorem foldl_targetFrameCallback_base [Ring α]
    (msgs : List (geometry_msgs.PoseStamped α)) (c : CartesianMotionController α σ) :
    (msgs.foldl targetFrameCallback c).base = c.base ∧
      (msgs.foldl targetFrameCallback c).calls = c.calls := by
  induction msgs generalizing c with
  | nil => exact ⟨rfl, rfl⟩
  | cons m rest ih =>
    rw [List.foldl_cons]
    refine ⟨(ih _).1.trans ?_, (ih _).2.trans ?_⟩
    · by_cases h : m.header.frame_id = c.m_robot_base_link
      · rw [targetFrameCallback_of_eq c m h]
      · rw [targetFrameCallback_of_ne c m h]
    · by_cases h : m.header.frame_id = c.m_robot_base_link
      · rw [targetFrameCallback_of_eq c m h]
      · rw [targetFrameCallback_of_ne c m h]

theorem latestTarget_of_rejected [Ring α] (base_link : String)
    (msgs : List (geometry_msgs.PoseStamped α)) (init : Frame α)
    (h : ∀ m ∈ msgs, m.header.frame_id ≠ base_link) :
    latestTarget base_link msgs init = init := by
  have hf : msgs.filter (fun m => decide (m.header.frame_id = base_link)) = [] := by
    rw [List.filter_eq_nil_iff]
    intro m hm
    simpa using h m hm
  simp [latestTarget, lastAccepted, hf]

theorem latestTarget_append [Ring α] (base_link : String)
    (l1 l2 : List (geometry_msgs.PoseStamped α)) (init : Frame α) :
    latestTarget base_link (l1 ++ l2) init =
      latestTarget base_link l2 (latestTarget base_link l1 init) := by
  have h := foldl_targetFrameCallback_target (l1 ++ l2)
    ({ base := (), m_robot_base_link := base_link, m_iterations := 0,
       m_current_frame := init, m_target_frame := init,
       m_frankaState := ⟨fun _ => 0, fun _ => 0, fun _ => 0⟩,
       published := [], calls := [], warnings := [] } : CartesianMotionController α Unit)
  rw [List.foldl_append, foldl_targetFrameCallback_target,
    foldl_targetFrameCallback_base_link, foldl_targetFrameCallback_target] at h
  exact h.symm

/-- The stored target after a cycle with messages arriving in between. -/
theorem interleaved_stored_target [LinearOrderedField α] (K : Numeric α) (B : Base α σ)
    (arrivals : List (List (geometry_msgs.PoseStamped α)))
    (c : CartesianMotionController α σ) :
    (subStepsInterleaved K B arrivals c).m_target_frame =
        latestTarget c.m_robot_base_link arrivals.flatten c.m_target_frame ∧
      (subStepsInterleaved K B arrivals c).m_robot_base_link = c.m_robot_base_link := by
  induction arrivals generalizing c with
  | nil => exact ⟨rfl, rfl⟩
  | cons msgs rest ih =>
    rw [subStepsInterleaved, List.flatten_cons, latestTarget_append]
    obtain ⟨h1, h2⟩ := ih (subStep K B (msgs.foldl targetFrameCallback c))
    rw [subStep_target, subStep_base_link, foldl_targetFrameCallback_base_link,
      foldl_targetFrameCallback_target] at h1
    rw [subStep_base_link, foldl_targetFrameCallback_base_link] at h2
    exact ⟨h1, h2⟩

/-- When every arriving message is rejected, the loop with arrivals makes the calls of
the loop that works on a snapshot of the target. -/
theorem subStepsInterleaved_calls_of_rejected [LinearOrderedField α] (K : Numeric α)
    (B : Base α σ) (arrivals : List (List (geometry_msgs.PoseStamped α)))
    (c1 c2 : CartesianMotionController α σ) (hb : c1.base = c2.base)
    (hc : c1.calls = c2.calls) (hl : c1.m_robot_base_link = c2.m_robot_base_link)
    (h : ∀ msgs ∈ arrivals, ∀ m ∈ msgs, m.header.frame_id ≠ c1.m_robot_base_link) :
    (subStepsInterleaved K B arrivals c1).calls =
      (subStepsSnapshotSpec K B c1.m_target_frame arrivals c2).calls := by
  induction arrivals generalizing c1 c2 with
  | nil => exact hc
  | cons msgs rest ih =>
    rw [subStepsInterleaved, subStepsSnapshotSpec]
    have hrej : ∀ m ∈ msgs, m.header.frame_id ≠ c1.m_robot_base_link :=
      h msgs (List.mem_cons_self _ _)
    have ht1 : (msgs.foldl targetFrameCallback c1).m_target_frame = c1.m_target_frame := by
      rw [foldl_targetFrameCallback_target, latestTarget_of_rejected _ _ _ hrej]
    have he : (computeMotionError K B (msgs.foldl targetFrameCallback c1)).1 =
        (computeMotionError K B
          { msgs.foldl targetFrameCallback c2 with m_target_frame := c1.m_target_frame }).1 :=
      computeMotionError_fst_congr K B _ _
        (by
          show (msgs.foldl targetFrameCallback c1).base = (msgs.foldl targetFrameCallback c2).base
          rw [(foldl_targetFrameCallback_base msgs c1).1,
            (foldl_targetFrameCallback_base msgs c2).1, hb])
        ht1
    have key := ih (subStep K B (msgs.foldl targetFrameCallback c1))
      { subStep K B
          { msgs.foldl targetFrameCallback c2 with m_target_frame := c1.m_target_frame } with
        m_target_frame := (msgs.foldl targetFrameCallback c2).m_target_frame }
      (by
        show (subStep K B (msgs.foldl targetFrameCallback c1)).base =
          (subStep K B { msgs.foldl targetFrameCallback c2 with
            m_target_frame := c1.m_target_frame }).base
        rw [subStep_base, subStep_base, he]
        show _ = B.computeJointControlCmds _ _ (msgs.foldl targetFrameCallback c2).base
        rw [(foldl_targetFrameCallback_base msgs c1).1,
          (foldl_targetFrameCallback_base msgs c2).1, hb])
      (by
        show (subStep K B (msgs.foldl targetFrameCallback c1)).calls =
          (subStep K B { msgs.foldl targetFrameCallback c2 with
            m_target_frame := c1.m_target_frame }).calls
        rw [subStep_calls, subStep_calls, he]
        show _ = (msgs.foldl targetFrameCallback c2).calls ++ _
        rw [(foldl_targetFrameCallback_base msgs c1).2,
          (foldl_targetFrameCallback_base msgs c2).2, hc])
      (by
        show (subStep K B (msgs.foldl targetFrameCallback c1)).m_robot_base_link =
          (msgs.foldl targetFrameCallback c2).m_robot_base_link
        rw [subStep_base_link, foldl_targetFrameCallback_base_link,
          foldl_targetFrameCallback_base_link, hl])
      (by
        intro l hl2 m hm
        rw [subStep_base_link, foldl_targetFrameCallback_base_link]
        exact h l (List.mem_cons_of_mem _ hl2) m hm)
    rw [subStep_target, ht1] at key
    exact key

end cartesian_motion_controller

namespace cartesian_motion_controller

open KDL

variable {α σ : Type}

/-- C9 as stated fails: with two sub-steps, the solver resting at the origin, the
target at the origin when the cycle starts, and one accepted message for the point
`(5,0,0)` arriving between the first and the second sub-step, the second sub-step is
handed the error `(1,0,0,0,0,0)` towards the new target, where a loop working on one
snapshot of the target hands over the zero error twice. -/
theorem target_snapshot_counterexample :
    (subStepsInterleaved reference.numeric reference.fixedBase
        [[], [reference.message "base_link" 5 0 0]]
        (reference.controller (reference.frameAt 0 0 0) (reference.frameAt 0 0 0) 2)).calls =
      [Call.computeJointControlCmds ![0, 0, 0, 0, 0, 0] 0.02,
       Call.computeJointControlCmds ![1, 0, 0, 0, 0, 0] 0.02] ∧
    (subStepsSnapshotSpec reference.numeric reference.fixedBase (reference.frameAt 0 0 0)
        [[], [reference.message "base_link" 5 0 0]]
        (reference.controller (reference.frameAt 0 0 0) (reference.frameAt 0 0 0) 2)).calls =
      [Call.computeJointControlCmds ![0, 0, 0, 0, 0, 0] 0.02,
       Call.computeJointControlCmds ![0, 0, 0, 0, 0, 0] 0.02] ∧
    (subStepsInterleaved reference.numeric reference.fixedBase
        [[], [reference.message "base_link" 5 0 0]]
        (reference.controller (reference.frameAt 0 0 0) (reference.frameAt 0 0 0) 2)).calls ≠
    (subStepsSnapshotSpec reference.numeric reference.fixedBase (reference.frameAt 0 0 0)
        [[], [reference.message "base_link" 5 0 0]]
        (reference.controller (reference.frameAt 0 0 0) (reference.frameAt 0 0 0) 2)).calls := by
  have hcb : targetFrameCallback
      (subStep reference.numeric reference.fixedBase
        (reference.controller (reference.frameAt 0 0 0) (reference.frameAt 0 0 0) 2))
      (reference.message "base_link" 5 0 0) =
      { subStep reference.numeric reference.fixedBase
          (reference.controller (reference.frameAt 0 0 0) (reference.frameAt 0 0 0) 2) with
        m_target_frame := reference.frameAt 5 0 0 } := by
    rw [targetFrameCallback_of_eq _ _ rfl, reference.frameOfMessage_message]
  have h1 : (subStepsInterleaved reference.numeric reference.fixedBase
        [[], [reference.message "base_link" 5 0 0]]
        (reference.controller (reference.frameAt 0 0 0) (reference.frameAt 0 0 0) 2)).calls =
      [Call.computeJointControlCmds ![0, 0, 0, 0, 0, 0] 0.02,
       Call.computeJointControlCmds ![1, 0, 0, 0, 0, 0] 0.02] := by
    simp only [subStepsInterleaved, List.foldl_cons, List.foldl_nil]
    rw [hcb, subStep_calls, reference.error_five_away _ _ rfl rfl]
    show (subStep _ _ _).calls ++ _ = _
    rw [subStep_calls, reference.error_at_target _ _ 0 0 0 rfl rfl]
    rfl
  have h2 : (subStepsSnapshotSpec reference.numeric reference.fixedBase
        (reference.frameAt 0 0 0) [[], [reference.message "base_link" 5 0 0]]
        (reference.controller (reference.frameAt 0 0 0) (reference.frameAt 0 0 0) 2)).calls =
      [Call.computeJointControlCmds ![0, 0, 0, 0, 0, 0] 0.02,
       Call.computeJointControlCmds ![0, 0, 0, 0, 0, 0] 0.02] := by
    simp only [subStepsSnapshotSpec, List.foldl_cons, List.foldl_nil]
    rw [subStep_calls, reference.error_at_target _ _ 0 0 0 rfl rfl]
    show (subStep _ _ _).calls ++ _ = _
    rw [subStep_calls, reference.error_at_target _ _ 0 0 0 rfl rfl]
    rfl
  refine ⟨h1, h2, ?_⟩
  rw [h1, h2]
  intro h
  have h3 := congrArg (fun l => l.map (fun (k : Call ℚ) =>
    match k with
    | Call.computeJointControlCmds e _ => e 0
    | Call.writeJointControlCmds => 0)) h
  norm_num at h3

/-- C9, amended: each sub-step computes its motion error against the target frame
stored when that sub-step runs. If every message arriving during the cycle is
rejected, all sub-steps work on one and the same target, as a loop on a snapshot
would; otherwise the sub-step that follows a batch of arrivals already works on the
frame of the last accepted message of that batch (on the previous target if the
batch has none); and after the cycle the stored target is the frame of the last
accepted message of all arrivals, which is what the next cycle starts from. -/
theorem subStepsInterleaved_target [LinearOrderedField α] (K : Numeric α) (B : Base α σ)
    (c : CartesianMotionController α σ) :
    (∀ arrivals : List (List (geometry_msgs.PoseStamped α)),
      (∀ msgs ∈ arrivals, ∀ m ∈ msgs, m.header.frame_id ≠ c.m_robot_base_link) →
      (subStepsInterleaved K B arrivals c).calls =
        (subStepsSnapshotSpec K B c.m_target_frame arrivals c).calls) ∧
    (∀ msgs : List (geometry_msgs.PoseStamped α),
      (subStep K B (msgs.foldl targetFrameCallback c)).calls =
        c.calls ++ [Call.computeJointControlCmds
          (computeMotionError K B
            { c with m_target_frame :=
                latestTarget c.m_robot_base_link msgs c.m_target_frame }).1 0.02]) ∧
    (∀ arrivals : List (List (geometry_msgs.PoseStamped α)),
      (subStepsInterleaved K B arrivals c).m_target_frame =
        latestTarget c.m_robot_base_link arrivals.flatten c.m_target_frame) := by
  refine ⟨fun arrivals h => subStepsInterleaved_calls_of_rejected K B arrivals c c rfl rfl rfl h,
    fun msgs => ?_, fun arrivals => (interleaved_stored_target K B arrivals c).1⟩
  rw [subStep_calls, (foldl_targetFrameCallback_base msgs c).2,
    computeMotionError_fst_congr K B (msgs.foldl targetFrameCallback c)
      { c with m_target_frame := latestTarget c.m_robot_base_link msgs c.m_target_frame }
      (foldl_targetFrameCallback_base msgs c).1 (foldl_targetFrameCallback_target msgs c)]

/-- C9 amended, evaluated: a message in the wrong frame arriving between two sub-steps
leaves both sub-steps on the target `(5,0,0)`. -/
theorem subStepsInterleaved_target_witness :
    (subStepsInterleaved reference.numeric reference.fixedBase
        [[], [reference.message "wrong_frame" 0 7 0]]
        (reference.controller (reference.frameAt 0 0 0) (reference.frameAt 5 0 0) 2)).calls =
      (subStepsSnapshotSpec reference.numeric reference.fixedBase (reference.frameAt 5 0 0)
        [[], [reference.message "wrong_frame" 0 7 0]]
        (reference.controller (reference.frameAt 0 0 0) (reference.frameAt 5 0 0) 2)).calls :=
  (subStepsInterleaved_target reference.numeric reference.fixedBase
    (reference.controller (reference.frameAt 0 0 0) (reference.frameAt 5 0 0) 2)).1
    [[], [reference.message "wrong_frame" 0 7 0]]
    (by
      intro msgs hmsgs m hm
      simp only [List.mem_cons, List.mem_singleton, List.not_mem_nil, or_false] at hmsgs
      rcases hmsgs with rfl | rfl
      · simp at hm
      · simp only [List.mem_singleton] at hm
        subst hm
        decide)

end cartesian_motion_controller
